import Mathlib

/-!
# PruneNetCfg: a shallow embedding of `src/main.cpp`

The program lists the network components known to the Windows network
configuration service (`INetCfg`) and, with `-d`, asks for each one whether it
is to be removed and then deinstalls the accepted ones.

The embedding follows the source function by function.

* The configuration service is the environment. In the removal phase it is an
  arbitrary function from the calls made so far and the next call to the reply
  of that call (`Service`); in the enumeration phase it is the list of
  components that `IEnumNetCfgComponent::Next` hands out, each with the reply
  of its six property getters (`EnumService`).
* Standard input is a list of characters; `fgetc` returns `none` for `EOF`.
* `while (true)` has no bound, so the prompt loop takes a fuel argument and
  returns `none` when the fuel is used up before the loop is left.
* Calling a method through a null interface pointer is a fault: the run stops
  there and no value is returned.
-/

set_option autoImplicit false

namespace PruneNetCfg

/-! ## HRESULT -/

/-- The `HRESULT` of the Windows SDK: a signed 32-bit status value. -/
abbrev HRESULT := Int

/-- The Windows SDK test `FAILED(hr)`, which is `hr < 0`. -/
def FAILED (hr : HRESULT) : Bool := decide (hr < 0)

/-- The Windows SDK test `SUCCEEDED(hr)`, which is `hr >= 0`. -/
def SUCCEEDED (hr : HRESULT) : Bool := decide (0 ≤ hr)

/-- The Windows SDK constant `S_OK`. -/
def S_OK : HRESULT := 0

/-- The Windows SDK constant `E_FAIL`, 0x80004005 read as a signed 32-bit value. -/
def E_FAIL : HRESULT := -2147467259

/-- The Windows SDK constant `NETCFG_E_NO_WRITE_LOCK`, 0x8004A024 read as a
signed 32-bit value. -/
def NETCFG_E_NO_WRITE_LOCK : HRESULT := -2147180508

/-! ## The three macros of lines 24-49

Each macro evaluates its expression once and prints a `TRACE_HR` line when the
result is a failure. What differs is the jump.
-/

/-- `RETURN_IF_FAILED(expr)`: `some hr` when the enclosing function returns
`hr` at this point, `none` when control goes on. -/
def RETURN_IF_FAILED (hr : HRESULT) : Option HRESULT :=
  if FAILED hr then some hr else none

/-- `RETURN_IF_FAILED_(ret, expr)`: as `RETURN_IF_FAILED`, but the value
returned is `ret`. -/
def RETURN_IF_FAILED_ (ret : HRESULT) (hr : HRESULT) : Option HRESULT :=
  if FAILED hr then some ret else none

/-- `CONTINUE_IF_FAILED(expr)`: `true` when the iteration of the loop around
the macro call is abandoned at this point. The `continue` of the macro stands
inside the macro's own `do { ... } while (false)`; it passes control to the end
of that statement, whose condition is false, so control goes on with the
statement after the macro call in both cases. (Lines 276-280 use the macro
outside of any loop.) -/
def CONTINUE_IF_FAILED (hr : HRESULT) : Bool :=
  if FAILED hr then false else false

/-! ## The removal phase: `NetCfgInit`, `NetCfgWriteLock`, `DeinstallComponents` -/

/-- The calls that `DeinstallComponents` makes to the configuration service.
The calls of one loop iteration carry the component id of that iteration. -/
inductive Call where
  /-- `CoCreateInstance(CLSID_CNetCfg, ..., &nc)`, line 332. -/
  | CoCreateInstance
  /-- `netcfg.Initialize(nullptr)`, line 139. -/
  | Initialize
  /-- `netcfg.Uninitialize()`, line 147. -/
  | Uninitialize
  /-- `netcfg.As(&lock)`, the query for `INetCfgLock`, line 160. -/
  | QueryLock
  /-- `lock->AcquireWriteLock(5000, L"PruneNetCfg", lockingClient)`, line 164. -/
  | AcquireWriteLock
  /-- `lock->ReleaseWriteLock()`, line 176. -/
  | ReleaseWriteLock
  /-- `nc->FindComponent(componentId.c_str(), &ncc)`, line 354. -/
  | FindComponent (componentId : String)
  /-- `ncc->GetClassGuid(&classGuid)`, line 357. -/
  | GetClassGuid (componentId : String)
  /-- `nc->QueryNetCfgClass(&classGuid, IID_PPV_ARGS(&ncClass))`, line 361. -/
  | QueryNetCfgClass (componentId : String)
  /-- `ncClass.As(&ncClassSetup)`, line 362. -/
  | QueryClassSetup (componentId : String)
  /-- `ncClassSetup->DeInstall(ncc.Get(), nullptr, nullptr)`, line 363. -/
  | DeInstall (componentId : String)
  /-- `nc->Apply()`, line 366. -/
  | Apply
  deriving DecidableEq, Repr

/-- What a call leaves behind: its `HRESULT` and, for a call with an interface
out-parameter, whether the pointer it wrote is non-null. -/
structure Reply where
  hr : HRESULT
  ptr : Bool
  deriving DecidableEq, Repr

/-- A behaviour of the configuration service: the reply to a call, given the
calls made before it (oldest first). -/
abbrev Service := List Call → Call → Reply

/-- A run of the removal phase: the calls made, oldest first, and the value
returned; `result = none` is a fault (a call through a null pointer). -/
structure Run where
  result : Option HRESULT
  trace : List Call
  deriving DecidableEq, Repr

/-- The state of a `NetCfgWriteLock` after its constructor: the `hr` it wrote
and whether its `lock` member is non-null. -/
structure LockState where
  hr : HRESULT
  lock : Bool
  deriving DecidableEq, Repr

/-- The constructor of `NetCfgWriteLock`, lines 158-171. The result is the
trace so far and the lock state, or `Sum.inl` with the trace at a fault. -/
def NetCfgWriteLock (svc : Service) (tr : List Call) : List Call ⊕ (List Call × LockState) :=
  -- hr = netcfg.As(&lock);
  let r := svc tr Call.QueryLock
  let tr := tr ++ [Call.QueryLock]
  -- if (!FAILED(hr)) return;
  if !FAILED r.hr then Sum.inr (tr, ⟨r.hr, r.ptr⟩)
  -- hr = lock->AcquireWriteLock(...);
  else if !r.ptr then Sum.inl tr
  else
    let a := svc tr Call.AcquireWriteLock
    let tr := tr ++ [Call.AcquireWriteLock]
    -- if (FAILED(hr)) { lock.Reset(); return; }
    if FAILED a.hr then Sum.inr (tr, ⟨a.hr, false⟩)
    -- hr = S_OK;
    else Sum.inr (tr, ⟨S_OK, true⟩)

/-- The destructor of `NetCfgWriteLock`, lines 173-177. -/
def NetCfgWriteLock_dtor (lock : Bool) (tr : List Call) : List Call :=
  if lock then tr ++ [Call.ReleaseWriteLock] else tr

/-- The destructor of `NetCfgInit`, lines 144-148. -/
def NetCfgInit_dtor (initialized : Bool) (tr : List Call) : List Call :=
  if initialized then tr ++ [Call.Uninitialize] else tr

/-- One iteration of the loop of `DeinstallComponents`, lines 350-364:
the trace after the iteration, or `Sum.inl` with the trace at a fault. -/
def deinstallOne (svc : Service) (tr : List Call) (componentId : String) :
    List Call ⊕ List Call :=
  -- CONTINUE_IF_FAILED(nc->FindComponent(componentId.c_str(), &ncc));
  let f := svc tr (Call.FindComponent componentId)
  let tr := tr ++ [Call.FindComponent componentId]
  if CONTINUE_IF_FAILED f.hr then Sum.inr tr
  -- CONTINUE_IF_FAILED(ncc->GetClassGuid(&classGuid));
  else if !f.ptr then Sum.inl tr
  else
    let g := svc tr (Call.GetClassGuid componentId)
    let tr := tr ++ [Call.GetClassGuid componentId]
    if CONTINUE_IF_FAILED g.hr then Sum.inr tr
    else
      -- CONTINUE_IF_FAILED(nc->QueryNetCfgClass(&classGuid, IID_PPV_ARGS(&ncClass)));
      let q := svc tr (Call.QueryNetCfgClass componentId)
      let tr := tr ++ [Call.QueryNetCfgClass componentId]
      if CONTINUE_IF_FAILED q.hr then Sum.inr tr
      -- CONTINUE_IF_FAILED(ncClass.As(&ncClassSetup));
      else if !q.ptr then Sum.inl tr
      else
        let s := svc tr (Call.QueryClassSetup componentId)
        let tr := tr ++ [Call.QueryClassSetup componentId]
        if CONTINUE_IF_FAILED s.hr then Sum.inr tr
        -- CONTINUE_IF_FAILED(ncClassSetup->DeInstall(ncc.Get(), nullptr, nullptr));
        else if !s.ptr then Sum.inl tr
        else
          let d := svc tr (Call.DeInstall componentId)
          let tr := tr ++ [Call.DeInstall componentId]
          if CONTINUE_IF_FAILED d.hr then Sum.inr tr
          else Sum.inr tr

/-- The loop `for (auto const& componentId : componentIds)` of lines 350-364. -/
def deinstallLoop (svc : Service) : List Call → List String → List Call ⊕ List Call
  | tr, [] => Sum.inr tr
  | tr, componentId :: rest =>
    match deinstallOne svc tr componentId with
    | Sum.inl tr1 => Sum.inl tr1
    | Sum.inr tr1 => deinstallLoop svc tr1 rest

/-- `DeinstallComponents`, lines 329-369. The destructors of `lock` and `init`
run at every `return`, in that order. Console output is not part of the run
recorded here. -/
def DeinstallComponents (svc : Service) (componentIds : List String) : Run :=
  -- RETURN_IF_FAILED_(1, CoCreateInstance(...));
  let c := svc [] Call.CoCreateInstance
  let tr := [Call.CoCreateInstance]
  match RETURN_IF_FAILED_ 1 c.hr with
  | some v => ⟨some v, tr⟩
  | none =>
    -- NetCfgInit init(*nc.Get()); RETURN_IF_FAILED(init.Initialize());
    if !c.ptr then ⟨none, tr⟩
    else
      let i := svc tr Call.Initialize
      let tr := tr ++ [Call.Initialize]
      let initialized := SUCCEEDED i.hr
      match RETURN_IF_FAILED i.hr with
      | some v => ⟨some v, NetCfgInit_dtor initialized tr⟩
      | none =>
        -- NetCfgWriteLock lock(nc, hr, ReceiveCoTaskMemString(lockingClient));
        match NetCfgWriteLock svc tr with
        | Sum.inl tr1 => ⟨none, tr1⟩
        | Sum.inr (tr1, ls) =>
          -- if (FAILED(hr)) { ...; return E_FAIL; }
          if FAILED ls.hr then
            ⟨some E_FAIL, NetCfgInit_dtor initialized (NetCfgWriteLock_dtor ls.lock tr1)⟩
          else
            match deinstallLoop svc tr1 componentIds with
            | Sum.inl tr2 => ⟨none, tr2⟩
            | Sum.inr tr2 =>
              -- RETURN_IF_FAILED_(1, nc->Apply());
              let a := svc tr2 Call.Apply
              let tr3 := tr2 ++ [Call.Apply]
              match RETURN_IF_FAILED_ 1 a.hr with
              | some v =>
                ⟨some v, NetCfgInit_dtor initialized (NetCfgWriteLock_dtor ls.lock tr3)⟩
              | none =>
                -- return S_OK;
                ⟨some S_OK, NetCfgInit_dtor initialized (NetCfgWriteLock_dtor ls.lock tr3)⟩

/-! ## The enumeration phase: `DumpComponent`, `EnumerateComponents` -/

/-- What the enumeration phase writes to standard output, one item per
`TRACE_HR` line, per component block (the seven `printf` calls of lines
201-207), per prompt text and per `printf("\n")` of line 251. -/
inductive Out where
  /-- The line of `TRACE_HR`: function, source line and the failed `HRESULT`. -/
  | failed (site : String) (line : Nat) (hr : HRESULT)
  /-- The component block of `DumpComponent`. -/
  | block (id displayName bindName : String) (status classGuid instanceGuid : Nat)
  /-- The text `Remove? [Y]es, [N]o: `. -/
  | prompt
  /-- The line break printed after a prompt loop. -/
  | newline
  deriving DecidableEq, Repr

/-- `TRACE_HR(hr)`, lines 18-22, at the given function and source line. -/
def TRACE_HR (site : String) (line : Nat) (hr : HRESULT) : List Out :=
  if FAILED hr then [Out.failed site line hr] else []

/-- The reply of a property getter: its `HRESULT` and the content of the
variable that received the value after the call (for a string received through
`ReceiveCoTaskMemString`, the empty string when the service left the pointer
null). -/
structure Got (α : Type) where
  hr : HRESULT
  val : α
  deriving DecidableEq, Repr

/-- An `INetCfgComponent` as the enumeration sees it: the replies of its six
property getters. GUIDs are kept as numbers. -/
structure Component where
  GetId : Got String
  GetDisplayName : Got String
  GetBindName : Got String
  GetDeviceStatus : Got Nat
  GetClassGuid : Got Nat
  GetInstanceGuid : Got Nat
  deriving DecidableEq, Repr

/-- `DumpComponent`, lines 186-209: the value returned and the output. -/
def DumpComponent (ncc : Component) : HRESULT × List Out :=
  match RETURN_IF_FAILED ncc.GetId.hr with
  | some v => (v, TRACE_HR "DumpComponent" 194 ncc.GetId.hr)
  | none =>
  match RETURN_IF_FAILED ncc.GetDisplayName.hr with
  | some v => (v, TRACE_HR "DumpComponent" 195 ncc.GetDisplayName.hr)
  | none =>
  match RETURN_IF_FAILED ncc.GetBindName.hr with
  | some v => (v, TRACE_HR "DumpComponent" 196 ncc.GetBindName.hr)
  | none =>
  match RETURN_IF_FAILED ncc.GetDeviceStatus.hr with
  | some v => (v, TRACE_HR "DumpComponent" 197 ncc.GetDeviceStatus.hr)
  | none =>
  match RETURN_IF_FAILED ncc.GetClassGuid.hr with
  | some v => (v, TRACE_HR "DumpComponent" 198 ncc.GetClassGuid.hr)
  | none =>
  match RETURN_IF_FAILED ncc.GetInstanceGuid.hr with
  | some v => (v, TRACE_HR "DumpComponent" 199 ncc.GetInstanceGuid.hr)
  | none =>
    (S_OK, [Out.block ncc.GetId.val ncc.GetDisplayName.val ncc.GetBindName.val
      ncc.GetDeviceStatus.val ncc.GetClassGuid.val ncc.GetInstanceGuid.val])

/-- `std::wstring::find(s)` from position 0: the least position at which `s`
occurs in the string, `none` for `npos`. -/
def find : List Char → List Char → Option Nat
  | [], s => if s.isEmpty then some 0 else none
  | c :: rest, s =>
    if s.isPrefixOf (c :: rest) then some 0 else (find rest s).map (· + 1)

/-- The test of line 233, `filter && displayName.find(filter) == npos`. -/
def filteredOut (filter : Option String) (displayName : String) : Bool :=
  match filter with
  | none => false
  | some f => (find displayName.data f.data).isNone

/-- `fgetc(stdin)`: the character read (`none` for `EOF`) and the rest of the
input. At the end of the input every further call gives `EOF`. -/
def fgetc : List Char → Option Char × List Char
  | [] => (none, [])
  | c :: rest => (some c, rest)

/-- `while (c != EOF && c != '\n') c = fgetc(stdin);` of lines 243 and 246:
the input left after the loop. -/
def skipLine : Option Char → List Char → List Char
  | _, [] => []
  | c, d :: rest =>
    if c != none && c != some '\n' then skipLine (some d) rest else d :: rest

/-- What a prompt loop that was left reports: the decision, the number of times
the prompt text was printed, and the input left. -/
structure Prompted where
  accept : Bool
  prompts : Nat
  stdin : List Char
  deriving DecidableEq, Repr

/-- The loop `while (true)` of lines 238-249, one unit of fuel per iteration;
`none` when the fuel ends before a `break`. -/
def promptLoop : Nat → List Char → Option Prompted
  | 0, _ => none
  | fuel + 1, stdin =>
    -- printf("Remove? [Y]es, [N]o: "); int c = fgetc(stdin);
    let c := (fgetc stdin).1
    let stdin1 := (fgetc stdin).2
    if c == some 'Y' || c == some 'y' then
      -- components->push_back(std::move(id)); (done by the caller on accept)
      some ⟨true, 1, skipLine c stdin1⟩
    else if c == some 'N' || c == some 'n' then
      some ⟨false, 1, skipLine c stdin1⟩
    else
      match promptLoop fuel stdin1 with
      | none => none
      | some p => some ⟨p.accept, p.prompts + 1, p.stdin⟩

/-- The state the loop of `EnumerateComponents` carries: the output so far,
the vector behind `components` (`none` for a null pointer) and the input left. -/
structure EnumState where
  out : List Out
  components : Option (List String)
  stdin : List Char
  deriving DecidableEq, Repr

/-- The rest of the loop body for a component that is not skipped, lines
236-252, with `id` the content of the variable `id`: the call of
`DumpComponent`, whose result is not looked at, and in delete mode the prompt
loop; `none` when the prompt loop is not left within the fuel. -/
def presentComponent (fuel : Nat) (id : String) (ncc : Component) (st : EnumState) :
    Option EnumState :=
  -- DumpComponent(*ncc.Get());
  let out := st.out ++ (DumpComponent ncc).2
  -- if (components) { while (true) { ... } printf("\n"); }
  match st.components with
  | none => some { st with out := out }
  | some selected =>
    match promptLoop fuel st.stdin with
    | none => none
    | some p =>
      some { out := out ++ List.replicate p.prompts Out.prompt ++ [Out.newline]
             components := some (if p.accept then selected ++ [id] else selected)
             stdin := p.stdin }

/-- One iteration of the loop of `EnumerateComponents`, lines 228-252, for the
component that `Next` handed out; `none` when the prompt loop is not left
within the fuel. -/
def enumOne (fuel : Nat) (filter : Option String) (ncc : Component) (st : EnumState) :
    Option EnumState :=
  -- CONTINUE_IF_FAILED(ncc->GetId(ReceiveCoTaskMemString(id)));
  let id := ncc.GetId.val
  let st1 := { st with out := st.out ++ TRACE_HR "EnumerateComponents" 230 ncc.GetId.hr }
  if CONTINUE_IF_FAILED ncc.GetId.hr then some st1
  else
    -- CONTINUE_IF_FAILED(ncc->GetDisplayName(ReceiveCoTaskMemString(displayName)));
    let displayName := ncc.GetDisplayName.val
    let st2 :=
      { st1 with out := st1.out ++ TRACE_HR "EnumerateComponents" 231 ncc.GetDisplayName.hr }
    if CONTINUE_IF_FAILED ncc.GetDisplayName.hr then some st2
    -- if (filter && displayName.find(filter) == std::wstring::npos) continue;
    else if filteredOut filter displayName then some st2
    else presentComponent fuel id ncc st2

/-- The loop `while ((hr = enumNcc->Next(1, &ncc, nullptr)) == S_OK)` of lines
227-253 over the components that `Next` hands out. -/
def enumLoop (fuel : Nat) (filter : Option String) :
    List Component → EnumState → Option EnumState
  | [], st => some st
  | ncc :: rest, st =>
    match enumOne fuel filter ncc st with
    | none => none
    | some st1 => enumLoop fuel filter rest st1

/-- The configuration service as the enumeration phase sees it: the results of
the session calls and the components that `Next` hands out with `S_OK` before
it returns something else. -/
structure EnumService where
  CoCreateInstance : HRESULT
  Initialize : HRESULT
  EnumComponents : HRESULT
  Reset : HRESULT
  components : List Component
  Uninitialize : HRESULT
  deriving DecidableEq, Repr

/-- A finished run of `EnumerateComponents`: the value returned, the output,
the vector behind `components` and the input left. -/
structure EnumRun where
  result : HRESULT
  out : List Out
  components : Option (List String)
  stdin : List Char
  deriving DecidableEq, Repr

/-- `EnumerateComponents`, lines 212-257; `none` when a prompt loop is not left
within the fuel. -/
def EnumerateComponents (fuel : Nat) (es : EnumService) (components : Option (List String))
    (filter : Option String) (stdin : List Char) : Option EnumRun :=
  match RETURN_IF_FAILED es.CoCreateInstance with
  | some v => some ⟨v, TRACE_HR "EnumerateComponents" 217 es.CoCreateInstance, components, stdin⟩
  | none =>
  match RETURN_IF_FAILED es.Initialize with
  | some v => some ⟨v, TRACE_HR "EnumerateComponents" 220 es.Initialize, components, stdin⟩
  | none =>
  match RETURN_IF_FAILED es.EnumComponents with
  | some v => some ⟨v, TRACE_HR "EnumerateComponents" 223 es.EnumComponents, components, stdin⟩
  | none =>
  match RETURN_IF_FAILED es.Reset with
  | some v => some ⟨v, TRACE_HR "EnumerateComponents" 224 es.Reset, components, stdin⟩
  | none =>
  match enumLoop fuel filter es.components ⟨[], components, stdin⟩ with
  | none => none
  | some st =>
    match RETURN_IF_FAILED es.Uninitialize with
    | some v =>
      some ⟨v, st.out ++ TRACE_HR "EnumerateComponents" 255 es.Uninitialize,
        st.components, st.stdin⟩
    | none => some ⟨S_OK, st.out, st.components, st.stdin⟩

/-! ## `main` -/

/-- The variable `doDelete` of line 377. -/
def doDelete (argv : List String) : Bool :=
  decide (argv.length ≥ 2) && (argv.getD 1 "" == "-d")

/-- The variable `filter` after lines 378-382. -/
def filterOf (argv : List String) : String :=
  if doDelete argv && argv.length == 3 then argv.getD 2 ""
  else if argv.length == 2 then argv.getD 1 ""
  else ""

/-- The first argument of the call of line 387: the selection vector, which is
empty, or a null pointer. -/
def selectionArg (argv : List String) : Option (List String) :=
  if doDelete argv then some [] else none

/-- The second argument of the call of lines 387-388. -/
def filterArg (argv : List String) : Option String :=
  if (filterOf argv).length > 0 then some (filterOf argv) else none

/-- A finished run of `main`: the exit code (`none` when the removal phase
faulted), the output of the enumeration phase and the run of
`DeinstallComponents` when it was called. -/
structure MainRun where
  exit : Option Int
  out : List Out
  removal : Option Run
  deriving DecidableEq, Repr

/-- The function `main`, lines 373-399, for the argument vector `argv`
(`argc` is its length); `none` when a prompt loop is not left within the fuel. -/
def main (fuel : Nat) (argv : List String) (es : EnumService) (svc : Service)
    (stdin : List Char) : Option MainRun :=
  match EnumerateComponents fuel es (selectionArg argv) (filterArg argv) stdin with
  | none => none
  | some e =>
    -- RETURN_IF_FAILED_(1, EnumerateComponents(...));
    match RETURN_IF_FAILED_ 1 e.result with
    | some v => some ⟨some v, e.out ++ TRACE_HR "main" 387 e.result, none⟩
    | none =>
      if doDelete argv then
        -- HRESULT hr = DeinstallComponents(selectedComponents);
        let r := DeinstallComponents svc (e.components.getD [])
        match r.result with
        | none => some ⟨none, e.out, some r⟩
        | some hr =>
          -- if (FAILED(hr)) { ...; return 1; }
          if FAILED hr then some ⟨some 1, e.out, some r⟩
          else some ⟨some 0, e.out, some r⟩
      else some ⟨some 0, e.out, none⟩

/-! ## Environments used in the concrete runs -/

/-- A service all of whose calls succeed and hand out non-null pointers. -/
def okService : Service := fun _ _ => ⟨S_OK, true⟩

/-- A component all of whose property getters succeed. -/
def okComponent (id displayName : String) : Component :=
  ⟨⟨S_OK, id⟩, ⟨S_OK, displayName⟩, ⟨S_OK, "bind"⟩, ⟨S_OK, 0⟩, ⟨S_OK, 1⟩, ⟨S_OK, 2⟩⟩

/-- A component whose `GetBindName` fails with `E_FAIL`; its other property
getters succeed. -/
def bindNameFails (id displayName : String) : Component :=
  ⟨⟨S_OK, id⟩, ⟨S_OK, displayName⟩, ⟨E_FAIL, ""⟩, ⟨S_OK, 0⟩, ⟨S_OK, 1⟩, ⟨S_OK, 2⟩⟩

/-- An enumeration session all of whose session calls succeed. -/
def okEnum (components : List Component) : EnumService :=
  ⟨S_OK, S_OK, S_OK, S_OK, components, S_OK⟩

/-! ## Observations on runs, and the behaviour the claims describe -/

/-- The component ids of the `DeInstall` calls of a trace, in call order. -/
def deinstalls : List Call → List String
  | [] => []
  | Call.DeInstall componentId :: rest => componentId :: deinstalls rest
  | _ :: rest => deinstalls rest

/-- A reply that succeeds and hands out a non-null pointer. -/
def Reply.resolved (r : Reply) : Bool := !FAILED r.hr && r.ptr

/-- The id `componentId` resolves under `svc`: whenever they are made,
`FindComponent`, `GetClassGuid`, `QueryNetCfgClass` and the class-setup query
for it succeed. -/
def Resolves (svc : Service) (componentId : String) : Prop :=
  ∀ tr : List Call,
    (svc tr (Call.FindComponent componentId)).resolved = true ∧
    FAILED (svc tr (Call.GetClassGuid componentId)).hr = false ∧
    (svc tr (Call.QueryNetCfgClass componentId)).resolved = true ∧
    (svc tr (Call.QueryClassSetup componentId)).resolved = true

/-- A service whose write lock is held by another client: the query for
`INetCfgLock` succeeds, and `AcquireWriteLock`, `DeInstall` and `Apply` are
refused with `NETCFG_E_NO_WRITE_LOCK`. -/
def lockedService : Service := fun _ c =>
  match c with
  | Call.AcquireWriteLock => ⟨NETCFG_E_NO_WRITE_LOCK, false⟩
  | Call.DeInstall _ => ⟨NETCFG_E_NO_WRITE_LOCK, false⟩
  | Call.Apply => ⟨NETCFG_E_NO_WRITE_LOCK, false⟩
  | _ => ⟨S_OK, true⟩

/-- A service whose `Apply` fails with `E_FAIL`; every other call succeeds. -/
def applyFailsService : Service := fun _ c =>
  match c with
  | Call.Apply => ⟨E_FAIL, false⟩
  | _ => ⟨S_OK, true⟩

/-- A service that cannot be created in the removal phase:
`CoCreateInstance` fails with `E_FAIL`. -/
def createFailsService : Service := fun _ c =>
  match c with
  | Call.CoCreateInstance => ⟨E_FAIL, false⟩
  | _ => ⟨S_OK, true⟩

/-- A service that no longer knows the component `gone`: `FindComponent` for
it fails with `E_FAIL` and leaves the pointer null; every other call succeeds. -/
def findFailsService (gone : String) : Service := fun _ c =>
  match c with
  | Call.FindComponent componentId =>
    if componentId = gone then ⟨E_FAIL, false⟩ else ⟨S_OK, true⟩
  | _ => ⟨S_OK, true⟩

/-- A service whose `DeInstall` fails for the ids in `bad`. -/
def deinstallFailsService (bad : List String) : Service := fun _ c =>
  match c with
  | Call.DeInstall componentId =>
    if componentId ∈ bad then ⟨E_FAIL, false⟩ else ⟨S_OK, true⟩
  | _ => ⟨S_OK, true⟩

/-- The test `c` is one of the four characters that decide a prompt. -/
def isAnswer (c : Char) : Bool := c == 'Y' || c == 'y' || c == 'N' || c == 'n'

/-- One prompt as the claims describe it: the deciding character is the first
of `Y`, `y`, `N`, `n` in the input left, the decision is to accept exactly for
`Y` and `y`, and the input is consumed up to and including the line break
after the deciding character. `none` when the input ends before a deciding
character is read. -/
def specDecision (stdin : List Char) : Option (Bool × List Char) :=
  match stdin.dropWhile (fun c => !isAnswer c) with
  | [] => none
  | c :: rest => some (c == 'Y' || c == 'y', (rest.dropWhile (fun d => d != '\n')).drop 1)

/-- The decisions of `n` prompts in a row, `none` when one of them reads no
deciding character. -/
def specDecisions : Nat → List Char → Option (List Bool)
  | 0, _ => some []
  | n + 1, stdin =>
    match specDecision stdin with
    | none => none
    | some (d, rest) => (specDecisions n rest).map (fun ds => d :: ds)

/-- The components that pass the filter test of line 233, in enumeration
order: those that are presented. -/
def presented (filter : Option String) (components : List Component) : List Component :=
  components.filter (fun ncc => !filteredOut filter ncc.GetDisplayName.val)

/-- The ids of the presented components whose decision is to accept, in
presentation order. -/
def accepted (shown : List Component) (ds : List Bool) : List String :=
  ((shown.zip ds).filter (fun p => p.2)).map (fun p => p.1.GetId.val)

/-- The session calls before the loop of `EnumerateComponents` succeed, so
that the loop is reached. -/
def EnumService.loopReached (es : EnumService) : Bool :=
  !FAILED es.CoCreateInstance && !FAILED es.Initialize && !FAILED es.EnumComponents &&
    !FAILED es.Reset

/-- The session calls before the loop of `EnumerateComponents` and the final
`Uninitialize` succeed. -/
def EnumService.sessionOk (es : EnumService) : Bool :=
  es.loopReached && !FAILED es.Uninitialize

/-- The filter condition of the claims: no filter, the empty filter, or a
filter that occurs in the display name as a block of consecutive characters. -/
def filterAdmits (filter : Option String) (displayName : String) : Prop :=
  filter = none ∨ filter = some "" ∨ ∃ f, filter = some f ∧ f.data <:+: displayName.data

/-- The component block that `DumpComponent` prints for a component. -/
def Component.block (ncc : Component) : Out :=
  Out.block ncc.GetId.val ncc.GetDisplayName.val ncc.GetBindName.val
    ncc.GetDeviceStatus.val ncc.GetClassGuid.val ncc.GetInstanceGuid.val

/-- One of the six property fetches of the component fails. -/
def Component.fetchFails (ncc : Component) : Bool :=
  FAILED ncc.GetId.hr || FAILED ncc.GetDisplayName.hr || FAILED ncc.GetBindName.hr ||
    FAILED ncc.GetDeviceStatus.hr || FAILED ncc.GetClassGuid.hr ||
    FAILED ncc.GetInstanceGuid.hr

/-- The test for a component block in the output. -/
def Out.isBlock : Out → Bool
  | Out.block _ _ _ _ _ _ => true
  | _ => false

/-- The component blocks of an output, in print order. -/
def blocks (out : List Out) : List Out := out.filter Out.isBlock

/-! ## Theorems: the removal phase -/

theorem deinstalls_append (xs ys : List Call) :
    deinstalls (xs ++ ys) = deinstalls xs ++ deinstalls ys := by
  induction xs with
  | nil => rfl
  | cons c rest ih => cases c <;> simp [deinstalls, ih]

theorem deinstallOne_resolved (svc : Service) (tr : List Call) (componentId : String)
    (h : Resolves svc componentId) :
    deinstallOne svc tr componentId = Sum.inr (tr ++
      [Call.FindComponent componentId, Call.GetClassGuid componentId,
       Call.QueryNetCfgClass componentId, Call.QueryClassSetup componentId,
       Call.DeInstall componentId]) := by
  have h1 := (h tr).1
  have h3 := (h (tr ++ [Call.FindComponent componentId]
    ++ [Call.GetClassGuid componentId])).2.2.1
  have h4 := (h (tr ++ [Call.FindComponent componentId]
    ++ [Call.GetClassGuid componentId] ++ [Call.QueryNetCfgClass componentId])).2.2.2
  simp only [Reply.resolved, Bool.and_eq_true, Bool.not_eq_true', List.append_assoc,
    List.singleton_append, List.cons_append, List.nil_append] at h1 h3 h4
  simp [deinstallOne, CONTINUE_IF_FAILED, h1.2, h3.2, h4.2]

theorem deinstallLoop_resolved (svc : Service) (componentIds : List String) :
    ∀ tr : List Call, (∀ componentId ∈ componentIds, Resolves svc componentId) →
    ∃ mid, deinstallLoop svc tr componentIds = Sum.inr (tr ++ mid) ∧
      deinstalls mid = componentIds ∧ Call.Apply ∉ mid := by
  induction componentIds with
  | nil => intro tr _; exact ⟨[], by simp [deinstallLoop], rfl, by simp⟩
  | cons componentId rest ih =>
    intro tr h
    have hone := deinstallOne_resolved svc tr componentId (h componentId (by simp))
    obtain ⟨mid, hmid, hd, ha⟩ := ih (tr ++
      [Call.FindComponent componentId, Call.GetClassGuid componentId,
       Call.QueryNetCfgClass componentId, Call.QueryClassSetup componentId,
       Call.DeInstall componentId]) (fun c hc => h c (by simp [hc]))
    refine ⟨[Call.FindComponent componentId, Call.GetClassGuid componentId,
       Call.QueryNetCfgClass componentId, Call.QueryClassSetup componentId,
       Call.DeInstall componentId] ++ mid, ?_, ?_, ?_⟩
    · simp only [deinstallLoop, hone, hmid, List.append_assoc]
    · simp [deinstalls_append, deinstalls, hd]
    · simp [ha]

theorem NetCfgWriteLock_trace (svc : Service) (tr tr0 : List Call) (ls : LockState)
    (h : NetCfgWriteLock svc tr = Sum.inr (tr0, ls)) :
    tr0 = tr ++ [Call.QueryLock] ∨ tr0 = tr ++ [Call.QueryLock, Call.AcquireWriteLock] := by
  unfold NetCfgWriteLock at h
  by_cases h1 : FAILED (svc tr Call.QueryLock).hr = true
  · by_cases h2 : (svc tr Call.QueryLock).ptr = true
    · by_cases h3 : FAILED (svc (tr ++ [Call.QueryLock]) Call.AcquireWriteLock).hr = true
      · simp [h1, h2, h3] at h
        exact Or.inr h.1.symm
      · simp [h1, h2, h3] at h
        exact Or.inr h.1.symm
    · simp [h1, h2] at h
  · simp [h1] at h
    exact Or.inl h.1.symm

theorem dtors_quiet (initialized lock : Bool) :
    deinstalls (NetCfgInit_dtor initialized (NetCfgWriteLock_dtor lock [])) = [] ∧
    Call.Apply ∉ NetCfgInit_dtor initialized (NetCfgWriteLock_dtor lock []) := by
  cases initialized <;> cases lock <;> simp [NetCfgInit_dtor, NetCfgWriteLock_dtor, deinstalls]

theorem dtors_append (initialized lock : Bool) (tr : List Call) :
    NetCfgInit_dtor initialized (NetCfgWriteLock_dtor lock tr) =
      tr ++ NetCfgInit_dtor initialized (NetCfgWriteLock_dtor lock []) := by
  cases initialized <;> cases lock <;> simp [NetCfgInit_dtor, NetCfgWriteLock_dtor]

/-- C5: when the session is created and initialised, the lock phase is passed
and every selected id resolves, then whichever `DeInstall` calls fail the run
returns, its `DeInstall` calls are exactly the selected ids in selection order,
and `Apply` is called exactly once, after all of them (also for the empty
selection). -/
theorem DeinstallComponents_apply_once (svc : Service) (componentIds : List String)
    (tr0 : List Call) (ls : LockState)
    (hcreate : (svc [] Call.CoCreateInstance).resolved = true)
    (hinit : FAILED (svc [Call.CoCreateInstance] Call.Initialize).hr = false)
    (hlock : NetCfgWriteLock svc [Call.CoCreateInstance, Call.Initialize] = Sum.inr (tr0, ls))
    (hpassed : FAILED ls.hr = false)
    (hres : ∀ componentId ∈ componentIds, Resolves svc componentId) :
    ∃ pre post, (DeinstallComponents svc componentIds).trace = pre ++ Call.Apply :: post ∧
      deinstalls pre = componentIds ∧ Call.Apply ∉ pre ∧
      deinstalls post = [] ∧ Call.Apply ∉ post ∧
      (DeinstallComponents svc componentIds).result ≠ none := by
  obtain ⟨mid, hmid, hd, ha⟩ := deinstallLoop_resolved svc componentIds tr0 hres
  have htr0 := NetCfgWriteLock_trace svc _ tr0 ls hlock
  have hq := dtors_quiet (SUCCEEDED (svc [Call.CoCreateInstance] Call.Initialize).hr) ls.lock
  simp only [Reply.resolved, Bool.and_eq_true, Bool.not_eq_true'] at hcreate
  refine ⟨tr0 ++ mid, NetCfgInit_dtor (SUCCEEDED (svc [Call.CoCreateInstance] Call.Initialize).hr)
    (NetCfgWriteLock_dtor ls.lock []), ?_, ?_, ?_, hq.1, hq.2, ?_⟩
  · have happ := dtors_append (SUCCEEDED (svc [Call.CoCreateInstance] Call.Initialize).hr)
      ls.lock (tr0 ++ (mid ++ [Call.Apply]))
    unfold DeinstallComponents
    simp only [RETURN_IF_FAILED_, RETURN_IF_FAILED, hcreate.1, hcreate.2, hinit,
      List.singleton_append, hlock, hpassed, hmid]
    by_cases hap : FAILED (svc (tr0 ++ mid) Call.Apply).hr = true
    · simp [hap, happ]
    · simp [hap, happ]
  · rcases htr0 with h | h <;> simp [h, deinstalls_append, deinstalls, hd]
  · rcases htr0 with h | h <;> simp [h, ha]
  · unfold DeinstallComponents
    simp only [RETURN_IF_FAILED_, RETURN_IF_FAILED, hcreate.1, hcreate.2, hinit,
      List.singleton_append, hlock, hpassed, hmid]
    by_cases hap : FAILED (svc (tr0 ++ mid) Call.Apply).hr = true
    · simp [hap]
    · simp [hap]

/-! ## Theorems: the prompt loop -/

theorem skipLine_newline (stdin : List Char) : skipLine (some '\n') stdin = stdin := by
  cases stdin <;> simp [skipLine]

theorem skipLine_eq (stdin : List Char) :
    ∀ c : Char, c ≠ '\n' →
      skipLine (some c) stdin = (stdin.dropWhile (fun d => d != '\n')).drop 1 := by
  induction stdin with
  | nil => intro c _; simp [skipLine]
  | cons d rest ih =>
    intro c hc
    by_cases hd : d = '\n'
    · subst hd
      simp [skipLine, hc, skipLine_newline, List.dropWhile]
    · have hd2 : (d != '\n') = true := by simpa using hd
      simp [skipLine, hc, List.dropWhile, hd2, ih d hd]

theorem specDecision_length (stdin rest : List Char) (d : Bool)
    (h : specDecision stdin = some (d, rest)) : rest.length ≤ stdin.length := by
  unfold specDecision at h
  have hle := (List.dropWhile_sublist (fun c => !isAnswer c) (l := stdin)).length_le
  cases hdw : stdin.dropWhile (fun c => !isAnswer c) with
  | nil => simp [hdw] at h
  | cons c t =>
    simp only [hdw, Option.some.injEq, Prod.mk.injEq] at h
    have h2 := (List.dropWhile_sublist (fun d => d != '\n') (l := t)).length_le
    rw [hdw, List.length_cons] at hle
    rw [← h.2, List.length_drop]
    omega

theorem promptLoop_spec (stdin : List Char) :
    ∀ (fuel : Nat) (d : Bool) (rest : List Char),
      specDecision stdin = some (d, rest) → stdin.length < fuel →
      ∃ k, promptLoop fuel stdin = some ⟨d, k, rest⟩ := by
  induction stdin with
  | nil => intro fuel d rest h; simp [specDecision] at h
  | cons c t ih =>
    intro fuel d rest h hfuel
    cases fuel with
    | zero => omega
    | succ f =>
      by_cases hy : (c == 'Y' || c == 'y') = true
      · have hans : isAnswer c = true := by
          simp only [isAnswer, Bool.or_eq_true] at hy ⊢
          tauto
        have hnl : c ≠ '\n' := by
          intro hc; subst hc; revert hy; decide
        simp only [specDecision, List.dropWhile, hans, Bool.not_true, Option.some.injEq,
          Prod.mk.injEq] at h
        refine ⟨1, ?_⟩
        have hy2 : (some c == some 'Y' || some c == some 'y') = true := by
          simpa using hy
        simp only [promptLoop, fgetc, hy2, if_true, skipLine_eq t c hnl]
        rw [← h.1, ← h.2, hy]
      · by_cases hn : (c == 'N' || c == 'n') = true
        · have hans : isAnswer c = true := by
            simp only [isAnswer, Bool.or_eq_true] at hn ⊢
            tauto
          have hnl : c ≠ '\n' := by
            intro hc; subst hc; revert hn; decide
          simp only [specDecision, List.dropWhile, hans, Bool.not_true, Option.some.injEq,
            Prod.mk.injEq] at h
          refine ⟨1, ?_⟩
          have hy2 : (some c == some 'Y' || some c == some 'y') = false := by
            simpa using hy
          have hn2 : (some c == some 'N' || some c == some 'n') = true := by
            simpa using hn
          simp only [promptLoop, fgetc, hy2, hn2, if_true, skipLine_eq t c hnl]
          simp only [Bool.not_eq_true] at hy
          rw [← h.1, ← h.2, hy]
          simp
        · have hans : isAnswer c = false := by
            simp only [Bool.not_eq_true] at hy hn
            simp only [isAnswer, Bool.or_assoc, hn, Bool.or_false] at hy ⊢
            exact hy
          have h2 : specDecision t = some (d, rest) := by
            simpa [specDecision, List.dropWhile, hans] using h
          obtain ⟨k, hk⟩ := ih f d rest h2 (by simpa using hfuel)
          refine ⟨k + 1, ?_⟩
          have hy2 : (some c == some 'Y' || some c == some 'y') = false := by
            simpa using hy
          have hn2 : (some c == some 'N' || some c == some 'n') = false := by
            simpa using hn
          simp only [promptLoop, fgetc, hy2, hn2, hk]
          simp

theorem promptLoop_eof : ∀ fuel : Nat, promptLoop fuel [] = none := by
  intro fuel
  induction fuel with
  | zero => rfl
  | succ f ih => simp [promptLoop, fgetc, ih]

/-! ## Theorems: the enumeration loop -/

theorem blocks_TRACE_HR (site : String) (line : Nat) (hr : HRESULT) :
    blocks (TRACE_HR site line hr) = [] := by
  unfold TRACE_HR blocks
  split <;> simp [Out.isBlock]

theorem prompt_not_mem_TRACE_HR (site : String) (line : Nat) (hr : HRESULT) :
    Out.prompt ∉ TRACE_HR site line hr := by
  unfold TRACE_HR
  split <;> simp

theorem DumpComponent_out (ncc : Component) :
    (DumpComponent ncc).2 ≠ [] ∧ Out.prompt ∉ (DumpComponent ncc).2 ∧
    blocks (DumpComponent ncc).2 = if ncc.fetchFails then [] else [ncc.block] := by
  unfold DumpComponent Component.fetchFails RETURN_IF_FAILED TRACE_HR
  cases h1 : FAILED ncc.GetId.hr <;> cases h2 : FAILED ncc.GetDisplayName.hr <;>
    cases h3 : FAILED ncc.GetBindName.hr <;> cases h4 : FAILED ncc.GetDeviceStatus.hr <;>
    cases h5 : FAILED ncc.GetClassGuid.hr <;> cases h6 : FAILED ncc.GetInstanceGuid.hr <;>
    simp [blocks, Out.isBlock, Component.block]

theorem enumOne_eq (fuel : Nat) (filter : Option String) (ncc : Component) (st : EnumState) :
    enumOne fuel filter ncc st =
      if filteredOut filter ncc.GetDisplayName.val then
        some { st with out := st.out ++ TRACE_HR "EnumerateComponents" 230 ncc.GetId.hr
                 ++ TRACE_HR "EnumerateComponents" 231 ncc.GetDisplayName.hr }
      else
        presentComponent fuel ncc.GetId.val ncc
          { st with out := st.out ++ TRACE_HR "EnumerateComponents" 230 ncc.GetId.hr
              ++ TRACE_HR "EnumerateComponents" 231 ncc.GetDisplayName.hr } := by
  simp [enumOne, CONTINUE_IF_FAILED]

theorem presented_cons (filter : Option String) (ncc : Component) (rest : List Component) :
    presented filter (ncc :: rest) =
      if filteredOut filter ncc.GetDisplayName.val then presented filter rest
      else ncc :: presented filter rest := by
  unfold presented
  cases h : filteredOut filter ncc.GetDisplayName.val <;> simp [List.filter_cons, h]

theorem blocks_append (xs ys : List Out) : blocks (xs ++ ys) = blocks xs ++ blocks ys := by
  simp [blocks]

theorem blocks_prompts (n : Nat) :
    blocks (List.replicate n Out.prompt) = [] ∧ blocks [Out.newline] = [] := by
  simp only [blocks, List.filter_eq_nil_iff]
  constructor
  · intro a ha
    rw [List.eq_of_mem_replicate ha]
    simp [Out.isBlock]
  · simp [Out.isBlock]

theorem enumLoop_blocks (fuel : Nat) (filter : Option String) (components : List Component) :
    ∀ st st1 : EnumState, enumLoop fuel filter components st = some st1 →
      blocks st1.out = blocks st.out ++
        ((presented filter components).filter (fun ncc => !ncc.fetchFails)).map
          Component.block := by
  induction components with
  | nil => intro st st1 h; simp [enumLoop] at h; simp [← h, presented]
  | cons ncc rest ih =>
    intro st st1 h
    rw [enumLoop, enumOne_eq] at h
    rw [presented_cons]
    by_cases hf : filteredOut filter ncc.GetDisplayName.val = true
    · simp only [hf, if_true] at h ⊢
      rw [ih _ _ h]
      simp [blocks_append, blocks_TRACE_HR]
    · simp only [hf, Bool.false_eq_true, if_false] at h ⊢
      unfold presentComponent at h
      have hdump := (DumpComponent_out ncc).2.2
      cases hc : st.components with
      | none =>
        simp only [hc] at h
        rw [ih _ _ h]
        cases hff : ncc.fetchFails <;>
          simp [blocks_append, blocks_TRACE_HR, hdump, hff, List.filter_cons]
      | some selected =>
        simp only [hc] at h
        cases hp : promptLoop fuel st.stdin with
        | none => simp [hp] at h
        | some p =>
          simp only [hp] at h
          rw [ih _ _ h]
          cases hff : ncc.fetchFails <;>
            simp [blocks_append, blocks_TRACE_HR, hdump, hff, List.filter_cons,
              (blocks_prompts p.prompts).1, (blocks_prompts p.prompts).2]

theorem enumLoop_list (fuel : Nat) (filter : Option String) (components : List Component) :
    ∀ st : EnumState, st.components = none →
      ∃ st1, enumLoop fuel filter components st = some st1 ∧ st1.components = none ∧
        st1.stdin = st.stdin ∧ (Out.prompt ∈ st1.out → Out.prompt ∈ st.out) := by
  induction components with
  | nil => intro st hc; exact ⟨st, by simp [enumLoop], hc, rfl, id⟩
  | cons ncc rest ih =>
    intro st hc
    rw [enumLoop, enumOne_eq]
    have ht1 := prompt_not_mem_TRACE_HR "EnumerateComponents" 230 ncc.GetId.hr
    have ht2 := prompt_not_mem_TRACE_HR "EnumerateComponents" 231 ncc.GetDisplayName.hr
    have hd := (DumpComponent_out ncc).2.1
    by_cases hf : filteredOut filter ncc.GetDisplayName.val = true
    · simp only [hf, if_true]
      obtain ⟨st1, h1, h2, h3, h4⟩ := ih
        { st with out := st.out ++ TRACE_HR "EnumerateComponents" 230 ncc.GetId.hr
            ++ TRACE_HR "EnumerateComponents" 231 ncc.GetDisplayName.hr } hc
      refine ⟨st1, h1, h2, h3, fun hm => ?_⟩
      have := h4 hm
      simp only [List.mem_append] at this
      tauto
    · simp only [hf, Bool.false_eq_true, if_false, presentComponent, hc]
      obtain ⟨st1, h1, h2, h3, h4⟩ := ih
        { out := st.out ++ TRACE_HR "EnumerateComponents" 230 ncc.GetId.hr
            ++ TRACE_HR "EnumerateComponents" 231 ncc.GetDisplayName.hr
            ++ (DumpComponent ncc).2
          components := none
          stdin := st.stdin } rfl
      refine ⟨st1, h1, h2, h3, fun hm => ?_⟩
      have := h4 hm
      simp only [List.mem_append] at this
      tauto

theorem accepted_cons (ncc : Component) (shown : List Component) (d : Bool) (ds : List Bool) :
    accepted (ncc :: shown) (d :: ds) =
      (if d then [ncc.GetId.val] else []) ++ accepted shown ds := by
  cases d <;> simp [accepted, List.filter_cons]

theorem enumLoop_delete (fuel : Nat) (filter : Option String) (components : List Component) :
    ∀ (st : EnumState) (selected : List String) (ds : List Bool),
      st.components = some selected → st.stdin.length < fuel →
      specDecisions (presented filter components).length st.stdin = some ds →
      ∃ st1, enumLoop fuel filter components st = some st1 ∧
        st1.components = some (selected ++ accepted (presented filter components) ds) := by
  induction components with
  | nil =>
    intro st selected ds hc _ hds
    simp [presented, specDecisions] at hds
    exact ⟨st, by simp [enumLoop], by simp [hc, ← hds, presented, accepted]⟩
  | cons ncc rest ih =>
    intro st selected ds hc hfuel hds
    rw [enumLoop, enumOne_eq]
    rw [presented_cons] at hds ⊢
    by_cases hf : filteredOut filter ncc.GetDisplayName.val = true
    · simp only [hf, if_true] at hds ⊢
      exact ih _ selected ds hc hfuel hds
    · simp only [hf, Bool.false_eq_true, if_false, List.length_cons, specDecisions] at hds ⊢
      cases hsd : specDecision st.stdin with
      | none => simp [hsd] at hds
      | some dr =>
        obtain ⟨d, stdin1⟩ := dr
        simp only [hsd, Option.map_eq_some'] at hds
        obtain ⟨ds1, hds1, rfl⟩ := hds
        obtain ⟨k, hk⟩ := promptLoop_spec st.stdin fuel d stdin1 hsd hfuel
        have hlen := specDecision_length st.stdin stdin1 d hsd
        simp only [presentComponent, hc, hk]
        obtain ⟨st1, h1, h2⟩ := ih
          { out := st.out ++ TRACE_HR "EnumerateComponents" 230 ncc.GetId.hr
              ++ TRACE_HR "EnumerateComponents" 231 ncc.GetDisplayName.hr
              ++ (DumpComponent ncc).2 ++ List.replicate k Out.prompt ++ [Out.newline]
            components := some (if d then selected ++ [ncc.GetId.val] else selected)
            stdin := stdin1 }
          (if d then selected ++ [ncc.GetId.val] else selected) ds1 rfl
          (by simpa using Nat.lt_of_le_of_lt hlen hfuel) hds1
        refine ⟨st1, h1, ?_⟩
        rw [h2, accepted_cons]
        cases d <;> simp

theorem EnumerateComponents_reached (fuel : Nat) (es : EnumService)
    (components : Option (List String)) (filter : Option String) (stdin : List Char)
    (hs : es.loopReached = true) :
    EnumerateComponents fuel es components filter stdin =
      (enumLoop fuel filter es.components ⟨[], components, stdin⟩).map
        (fun st => ⟨if FAILED es.Uninitialize then es.Uninitialize else S_OK,
          st.out ++ TRACE_HR "EnumerateComponents" 255 es.Uninitialize,
          st.components, st.stdin⟩) := by
  simp only [EnumService.loopReached, Bool.and_eq_true, Bool.not_eq_true'] at hs
  obtain ⟨⟨⟨h1, h2⟩, h3⟩, h4⟩ := hs
  unfold EnumerateComponents
  simp only [RETURN_IF_FAILED, h1, h2, h3, h4]
  cases enumLoop fuel filter es.components ⟨[], components, stdin⟩ with
  | none => simp
  | some st =>
    cases h5 : FAILED es.Uninitialize <;> simp [TRACE_HR, h5]

theorem find_isSome_iff (hay s : List Char) : (find hay s).isSome = true ↔ s <:+: hay := by
  induction hay with
  | nil =>
    cases s <;> simp [find]
  | cons c rest ih =>
    rw [find, List.infix_cons_iff, ← ih, ← List.isPrefixOf_iff_prefix]
    by_cases hp : s.isPrefixOf (c :: rest) = true
    · simp [hp]
    · simp [hp]

theorem filteredOut_iff (filter : Option String) (displayName : String) :
    filteredOut filter displayName = false ↔ filterAdmits filter displayName := by
  unfold filterAdmits
  cases filter with
  | none => simp [filteredOut]
  | some f =>
    have hfind := find_isSome_iff displayName.data f.data
    simp only [filteredOut, reduceCtorEq, Option.some.injEq, false_or, exists_eq_left']
    constructor
    · intro h
      right
      apply hfind.mp
      cases hfd : find displayName.data f.data <;> simp [hfd] at h ⊢
    · rintro (h | h)
      · subst h
        have := (find_isSome_iff displayName.data []).mpr List.nil_infix
        cases hfd : find displayName.data "".data <;> simp_all
      · have := hfind.mpr h
        cases hfd : find displayName.data f.data <;> simp_all

theorem presentComponent_ne (fuel : Nat) (id : String) (ncc : Component) (st : EnumState) :
    presentComponent fuel id ncc st ≠ some st := by
  have hne := (DumpComponent_out ncc).1
  unfold presentComponent
  intro h
  cases hc : st.components with
  | none =>
    simp only [hc, Option.some.injEq] at h
    have := congrArg EnumState.out h
    simp [hne] at this
  | some selected =>
    simp only [hc] at h
    cases hp : promptLoop fuel st.stdin with
    | none => simp [hp] at h
    | some p =>
      simp only [hp, Option.some.injEq] at h
      have := congrArg EnumState.out h
      simp [hne] at this

/-! ## Theorems: the claims about the enumeration phase -/

/-- C6: in delete mode, when the loop is reached and every prompt of a
presented component reads a deciding character, `EnumerateComponents` returns
and the selection vector has grown by exactly the ids of the presented
components whose deciding character was `Y` or `y`, in presentation order, with
nothing for a component decided by `N` or `n` and one entry per accepted
presentation. -/
theorem EnumerateComponents_selection (fuel : Nat) (es : EnumService)
    (selected : List String) (filter : Option String) (stdin : List Char) (ds : List Bool)
    (hs : es.loopReached = true) (hfuel : stdin.length < fuel)
    (hds : specDecisions (presented filter es.components).length stdin = some ds) :
    ∃ r, EnumerateComponents fuel es (some selected) filter stdin = some r ∧
      r.components = some (selected ++ accepted (presented filter es.components) ds) := by
  obtain ⟨st1, h1, h2⟩ := enumLoop_delete fuel filter es.components
    ⟨[], some selected, stdin⟩ selected ds rfl hfuel hds
  rw [EnumerateComponents_reached fuel es _ filter stdin hs, h1]
  exact ⟨_, rfl, h2⟩

/-- Witness of C6: the component `A` is presented twice and accepted twice, `B`
is rejected; the selection is `A`, `A`. -/
theorem EnumerateComponents_selection_witness :
    (okEnum [okComponent "A" "Intel Wifi", okComponent "B" "Realtek PCIe",
      okComponent "A" "Intel Wifi"]).loopReached = true ∧
    specDecisions (presented none [okComponent "A" "Intel Wifi",
      okComponent "B" "Realtek PCIe", okComponent "A" "Intel Wifi"]).length
      "y\n?N\nY\n".data = some [true, false, true] ∧
    ∃ r, EnumerateComponents 9 (okEnum [okComponent "A" "Intel Wifi",
        okComponent "B" "Realtek PCIe", okComponent "A" "Intel Wifi"]) (some []) none
        "y\n?N\nY\n".data = some r ∧
      r.components = some ([] ++ accepted (presented none [okComponent "A" "Intel Wifi",
        okComponent "B" "Realtek PCIe", okComponent "A" "Intel Wifi"])
        [true, false, true]) :=
  ⟨by decide, by decide,
    EnumerateComponents_selection 9 (okEnum [okComponent "A" "Intel Wifi",
      okComponent "B" "Realtek PCIe", okComponent "A" "Intel Wifi"]) [] none
      "y\n?N\nY\n".data [true, false, true] (by decide) (by decide) (by decide)⟩

/-- C7: for a component whose id and display name are fetched successfully,
the loop body presents the component (calls `DumpComponent` and, in delete
mode, runs the prompt loop) if and only if the filter is absent, empty, or
occurs in the display name as a block of consecutive characters; otherwise the
iteration leaves output, selection and input untouched. -/
theorem enumOne_presents_iff (fuel : Nat) (filter : Option String) (ncc : Component)
    (st : EnumState) (hid : FAILED ncc.GetId.hr = false)
    (hname : FAILED ncc.GetDisplayName.hr = false) :
    (enumOne fuel filter ncc st = presentComponent fuel ncc.GetId.val ncc st ↔
      filterAdmits filter ncc.GetDisplayName.val) ∧
    (enumOne fuel filter ncc st = some st ↔ ¬ filterAdmits filter ncc.GetDisplayName.val) := by
  have heq := enumOne_eq fuel filter ncc st
  simp only [TRACE_HR, hid, hname, Bool.false_eq_true, if_false, List.append_nil] at heq
  have hne := presentComponent_ne fuel ncc.GetId.val ncc st
  rw [← filteredOut_iff]
  cases hf : filteredOut filter ncc.GetDisplayName.val with
  | false =>
    simp only [hf, Bool.false_eq_true, if_false] at heq
    rw [heq]
    simp [hne]
  | true =>
    simp only [hf, if_true] at heq
    rw [heq]
    simp only [Bool.true_eq_false, iff_false, not_false_eq_true, iff_true, and_true]
    exact fun h => hne h.symm

/-- Witness of C7: with the filter `Realtek` the component named `Realtek PCIe`
is presented. -/
theorem enumOne_presents_iff_witness :
    FAILED (okComponent "A" "Realtek PCIe").GetId.hr = false ∧
    FAILED (okComponent "A" "Realtek PCIe").GetDisplayName.hr = false ∧
    ((enumOne 1 (some "Realtek") (okComponent "A" "Realtek PCIe") ⟨[], some [], "y\n".data⟩ =
        presentComponent 1 (okComponent "A" "Realtek PCIe").GetId.val
          (okComponent "A" "Realtek PCIe") ⟨[], some [], "y\n".data⟩ ↔
      filterAdmits (some "Realtek") (okComponent "A" "Realtek PCIe").GetDisplayName.val) ∧
    (enumOne 1 (some "Realtek") (okComponent "A" "Realtek PCIe") ⟨[], some [], "y\n".data⟩ =
        some ⟨[], some [], "y\n".data⟩ ↔
      ¬ filterAdmits (some "Realtek") (okComponent "A" "Realtek PCIe").GetDisplayName.val)) :=
  ⟨by decide, by decide,
    enumOne_presents_iff 1 (some "Realtek") (okComponent "A" "Realtek PCIe")
      ⟨[], some [], "y\n".data⟩ (by decide) (by decide)⟩

theorem presented_without_failing (filter : Option String) (before after : List Component)
    (bad : Component) (hbad : bad.fetchFails = true)
    (hothers : ∀ ncc ∈ before ++ after, ncc.fetchFails = false) :
    (presented filter (before ++ bad :: after)).filter (fun ncc => !ncc.fetchFails) =
      presented filter (before ++ after) := by
  have hb : ∀ ncc ∈ before, ncc.fetchFails = false :=
    fun ncc h => hothers ncc (List.mem_append_left _ h)
  have ha : ∀ ncc ∈ after, ncc.fetchFails = false :=
    fun ncc h => hothers ncc (List.mem_append_right _ h)
  have key : ∀ l : List Component, (∀ ncc ∈ l, ncc.fetchFails = false) →
      (presented filter l).filter (fun ncc => !ncc.fetchFails) = presented filter l := by
    intro l hl
    apply List.filter_eq_self.mpr
    intro ncc hmem
    have := hl ncc (List.mem_of_mem_filter hmem)
    simp [this]
  unfold presented at key ⊢
  simp only [List.filter_append, List.filter_cons]
  rw [key before hb]
  cases hf : filteredOut filter bad.GetDisplayName.val
  · simp only [Bool.not_false, if_true, List.filter_cons, hbad, Bool.not_true,
      Bool.false_eq_true, if_false]
    rw [key after ha]
  · simp only [Bool.not_true, Bool.false_eq_true, if_false]
    rw [key after ha]

/-- C8, as amended: when exactly one enumerated component has a failing
property fetch and the session calls succeed, no component block is printed for
it and the blocks of the other components that pass the filter are printed in
enumeration order. In list mode the enumeration returns `S_OK`, prints no
prompt, reads no input and appends nothing. In delete mode, when the failing
fetch is not `GetId` or `GetDisplayName` and every prompt reads a deciding
character, the enumeration returns `S_OK` and the selection is that of all the
components that pass the filter, the failing one among them. -/
theorem EnumerateComponents_one_failing (fuel : Nat) (es : EnumService)
    (filter : Option String) (stdin : List Char) (before after : List Component)
    (bad : Component) (hs : es.sessionOk = true)
    (hcomps : es.components = before ++ bad :: after)
    (hbad : bad.fetchFails = true)
    (hothers : ∀ ncc ∈ before ++ after, ncc.fetchFails = false) :
    (∃ r, EnumerateComponents fuel es none filter stdin = some r ∧ r.result = S_OK ∧
      blocks r.out = (presented filter (before ++ after)).map Component.block ∧
      Out.prompt ∉ r.out ∧ r.components = none ∧ r.stdin = stdin) ∧
    (∀ (selected : List String) (ds : List Bool),
      FAILED bad.GetId.hr = false → FAILED bad.GetDisplayName.hr = false →
      stdin.length < fuel →
      specDecisions (presented filter es.components).length stdin = some ds →
      ∃ r, EnumerateComponents fuel es (some selected) filter stdin = some r ∧
        r.result = S_OK ∧
        blocks r.out = (presented filter (before ++ after)).map Component.block ∧
        r.components = some (selected ++ accepted (presented filter es.components) ds)) := by
  have hpres := presented_without_failing filter before after bad hbad hothers
  have hun : FAILED es.Uninitialize = false := by
    simp only [EnumService.sessionOk, Bool.and_eq_true, Bool.not_eq_true'] at hs
    exact hs.2
  have hreach : es.loopReached = true := by
    simp only [EnumService.sessionOk, Bool.and_eq_true] at hs
    exact hs.1
  constructor
  · obtain ⟨st1, h1, h2, h3, h4⟩ := enumLoop_list fuel filter es.components
      ⟨[], none, stdin⟩ rfl
    have hb := enumLoop_blocks fuel filter es.components _ st1 h1
    rw [EnumerateComponents_reached fuel es _ filter stdin hreach, h1]
    refine ⟨_, rfl, by simp [hun], ?_, ?_, h2, h3⟩
    · simp only [TRACE_HR, hun, Bool.false_eq_true, if_false, List.append_nil]
      rw [hb, hcomps, hpres]
      simp [blocks]
    · simp only [TRACE_HR, hun, Bool.false_eq_true, if_false, List.append_nil]
      intro hm
      simpa using h4 hm
  · intro selected ds _ _ hfuel hds
    obtain ⟨st1, h1, h2⟩ := enumLoop_delete fuel filter es.components
      ⟨[], some selected, stdin⟩ selected ds rfl hfuel hds
    have hb := enumLoop_blocks fuel filter es.components _ st1 h1
    rw [EnumerateComponents_reached fuel es _ filter stdin hreach, h1]
    refine ⟨_, rfl, by simp [hun], ?_, h2⟩
    simp only [TRACE_HR, hun, Bool.false_eq_true, if_false, List.append_nil]
    rw [hb, hcomps, hpres]
    simp [blocks]

/-- Witness of the amended C8: `A` has a failing `GetBindName` between `B` and
`C`; both parts of the theorem at this input. -/
theorem EnumerateComponents_one_failing_witness :
    (okEnum [okComponent "B" "Realtek PCIe", bindNameFails "A" "Intel Wifi",
      okComponent "C" "Intel LAN"]).sessionOk = true ∧
    (bindNameFails "A" "Intel Wifi").fetchFails = true ∧
    (∀ ncc ∈ [okComponent "B" "Realtek PCIe"] ++ [okComponent "C" "Intel LAN"],
      ncc.fetchFails = false) ∧
    (∃ r, EnumerateComponents 7 (okEnum [okComponent "B" "Realtek PCIe",
        bindNameFails "A" "Intel Wifi", okComponent "C" "Intel LAN"]) none none
        "n\ny\nn\n".data = some r ∧ r.result = S_OK ∧
      blocks r.out = (presented none ([okComponent "B" "Realtek PCIe"] ++
        [okComponent "C" "Intel LAN"])).map Component.block ∧
      Out.prompt ∉ r.out ∧ r.components = none ∧ r.stdin = "n\ny\nn\n".data) ∧
    (∃ r, EnumerateComponents 7 (okEnum [okComponent "B" "Realtek PCIe",
        bindNameFails "A" "Intel Wifi", okComponent "C" "Intel LAN"]) (some []) none
        "n\ny\nn\n".data = some r ∧ r.result = S_OK ∧
      blocks r.out = (presented none ([okComponent "B" "Realtek PCIe"] ++
        [okComponent "C" "Intel LAN"])).map Component.block ∧
      r.components = some ([] ++ accepted (presented none (okEnum
        [okComponent "B" "Realtek PCIe", bindNameFails "A" "Intel Wifi",
          okComponent "C" "Intel LAN"]).components) [false, true, false])) :=
  ⟨by decide, by decide, by decide,
    (EnumerateComponents_one_failing 7 (okEnum [okComponent "B" "Realtek PCIe",
      bindNameFails "A" "Intel Wifi", okComponent "C" "Intel LAN"]) none "n\ny\nn\n".data
      [okComponent "B" "Realtek PCIe"] [okComponent "C" "Intel LAN"]
      (bindNameFails "A" "Intel Wifi") (by decide) rfl (by decide) (by decide)).1,
    (EnumerateComponents_one_failing 7 (okEnum [okComponent "B" "Realtek PCIe",
      bindNameFails "A" "Intel Wifi", okComponent "C" "Intel LAN"]) none "n\ny\nn\n".data
      [okComponent "B" "Realtek PCIe"] [okComponent "C" "Intel LAN"]
      (bindNameFails "A" "Intel Wifi") (by decide) rfl (by decide) (by decide)).2
      [] [false, true, false] (by decide) (by decide) (by decide) (by decide)⟩

/-- C8 as stated fails: in delete mode the component `A`, whose `GetBindName`
fails, gets no block but is prompted for, and on the answer `y` its id is
appended to the selection vector. -/
theorem EnumerateComponents_prompts_failing_component :
    (bindNameFails "A" "Intel Wifi").fetchFails = true ∧
    (okComponent "B" "Realtek PCIe").fetchFails = false ∧
    EnumerateComponents 1 (okEnum [okComponent "B" "Realtek PCIe",
        bindNameFails "A" "Intel Wifi"]) (some []) none "n\ny\n".data =
      some ⟨S_OK,
        [Out.block "B" "Realtek PCIe" "bind" 0 1 2, Out.prompt, Out.newline,
         Out.failed "DumpComponent" 196 E_FAIL, Out.prompt, Out.newline],
        some ["A"], []⟩ := by
  decide

/-- C3, the code at the failing input: for the argument vector `prog -d` the
filter handed to `EnumerateComponents` is the text `-d`, and a component named
`Intel Wifi` is neither dumped nor prompted for. -/
theorem main_delete_without_filter :
    doDelete ["prog", "-d"] = true ∧
    selectionArg ["prog", "-d"] = some [] ∧
    filterArg ["prog", "-d"] = some "-d" ∧
    main 1 ["prog", "-d"] (okEnum [okComponent "A" "Intel Wifi"]) okService "y\n".data =
      some ⟨some 0, [],
        some ⟨some S_OK, [Call.CoCreateInstance, Call.Initialize, Call.QueryLock, Call.Apply,
          Call.ReleaseWriteLock, Call.Uninitialize]⟩⟩ := by
  decide

/-- C9, the code at the failing input: with one component to prompt for and
an empty input, `EnumerateComponents` does not return, whatever the fuel. -/
theorem EnumerateComponents_eof_never_returns :
    ∀ fuel : Nat,
      EnumerateComponents fuel (okEnum [okComponent "A" "Intel Wifi"]) (some []) none [] =
        none := by
  intro fuel
  rw [EnumerateComponents_reached fuel _ _ _ _ (by decide)]
  simp [okEnum, enumLoop, enumOne_eq, filteredOut, presentComponent, promptLoop_eof]

/-- C10, the code at the failing input: on the input `xy`, line break, `n`,
line break, the second character of the first line is taken as the decision;
the component is accepted, its id appended, and the second line is left
unread. -/
theorem EnumerateComponents_invalid_char_keeps_line :
    ∀ fuel : Nat,
      EnumerateComponents (fuel + 2) (okEnum [okComponent "A" "Intel Wifi"]) (some []) none
        "xy\nn\n".data =
      some ⟨S_OK, [Out.block "A" "Intel Wifi" "bind" 0 1 2, Out.prompt, Out.prompt,
        Out.newline], some ["A"], "n\n".data⟩ := by
  intro fuel
  rfl

/-! ## Theorems: the removal phase at the failing inputs -/

/-- Witness of C5: the ids `A`, `B`, `A` with the `DeInstall` of `B` failing. -/
theorem DeinstallComponents_apply_once_witness :
    ((deinstallFailsService ["B"]) [] Call.CoCreateInstance).resolved = true ∧
    FAILED ((deinstallFailsService ["B"]) [Call.CoCreateInstance] Call.Initialize).hr = false ∧
    NetCfgWriteLock (deinstallFailsService ["B"]) [Call.CoCreateInstance, Call.Initialize] =
      Sum.inr ([Call.CoCreateInstance, Call.Initialize, Call.QueryLock], ⟨S_OK, true⟩) ∧
    (∀ componentId ∈ ["A", "B", "A"], Resolves (deinstallFailsService ["B"]) componentId) ∧
    ∃ pre post,
      (DeinstallComponents (deinstallFailsService ["B"]) ["A", "B", "A"]).trace =
        pre ++ Call.Apply :: post ∧
      deinstalls pre = ["A", "B", "A"] ∧ Call.Apply ∉ pre ∧
      deinstalls post = [] ∧ Call.Apply ∉ post ∧
      (DeinstallComponents (deinstallFailsService ["B"]) ["A", "B", "A"]).result ≠ none :=
  ⟨by decide, by decide, by decide, fun _ _ _ => ⟨rfl, rfl, rfl, rfl⟩,
    DeinstallComponents_apply_once (deinstallFailsService ["B"]) ["A", "B", "A"]
      [Call.CoCreateInstance, Call.Initialize, Call.QueryLock] ⟨S_OK, true⟩
      (by decide) (by decide) (by decide) (by decide) (fun _ _ _ => ⟨rfl, rfl, rfl, rfl⟩)⟩

/-- C1, the code at the failing input: against a service whose write lock is
held by another client, the run never calls `AcquireWriteLock` and still calls
`DeInstall` and `Apply`, then `ReleaseWriteLock`. -/
theorem DeinstallComponents_never_acquires :
    DeinstallComponents lockedService ["A"] =
      ⟨some 1, [Call.CoCreateInstance, Call.Initialize, Call.QueryLock,
        Call.FindComponent "A", Call.GetClassGuid "A", Call.QueryNetCfgClass "A",
        Call.QueryClassSetup "A", Call.DeInstall "A", Call.Apply, Call.ReleaseWriteLock,
        Call.Uninitialize]⟩ ∧
    Call.AcquireWriteLock ∉ (DeinstallComponents lockedService ["A"]).trace := by
  decide

/-- C2, the code at the failing inputs: when `Apply` fails, and when the
service cannot be created, `DeinstallComponents` returns 1, which `FAILED` does
not classify as a failure, and `main` exits with 0. -/
theorem main_exit_zero_on_fatal_failure :
    (DeinstallComponents applyFailsService ["A"]).result = some 1 ∧
    (DeinstallComponents createFailsService ["A"]).result = some 1 ∧
    FAILED 1 = false ∧
    (main 1 ["prog", "-d", "Intel"] (okEnum [okComponent "A" "Intel Wifi"]) applyFailsService
      "y\n".data).map MainRun.exit = some (some 0) ∧
    (main 1 ["prog", "-d", "Intel"] (okEnum [okComponent "A" "Intel Wifi"]) createFailsService
      "y\n".data).map MainRun.exit = some (some 0) := by
  decide

/-- C4, the code at the failing input: with the selection `A`, `B` and a
`FindComponent` for `A` that fails and leaves the pointer null, the run goes on
to call `GetClassGuid` through the null pointer and faults; `B` is not
processed and `Apply` is not called. -/
theorem DeinstallComponents_faults_on_unresolved_id :
    DeinstallComponents (findFailsService "A") ["A", "B"] =
      ⟨none, [Call.CoCreateInstance, Call.Initialize, Call.QueryLock,
        Call.FindComponent "A"]⟩ := by
  decide

end PruneNetCfg
